import Mathlib

/-!
Shallow embedding of the calorie-tracker persistence layer
(src/app/services/databaseService.ts, src/app/services/sqliteDatabaseService.ts,
src/app/context/MealContext.tsx).

Timestamps are milliseconds since the Unix epoch, as in ECMAScript.  The local
timezone is modelled as a fixed offset `tz` (milliseconds added to a UTC
timestamp to obtain local wall-clock time); the ECMAScript `Date` operations
used by the source (`setHours`, `getMonth`, `getFullYear`, `getDate`,
`toLocaleDateString`, the `Date(year, month, day)` constructor) are modelled
over the proleptic Gregorian calendar, which is the calendar ECMAScript
specifies.  Months are 0-based (0 = January), as in ECMAScript.  Note that on
`Int`, `/` is floor division and `%` is the nonnegative remainder.
-/

def dayMs : Int := 86400000

/-- Epoch day number (days since 1970-01-01) of the civil date `(y, m, d)`,
`m` 0-based in `[0, 11]`, `d` 1-based.  Days-from-civil on the proleptic
Gregorian calendar. -/
def daysFromCivil (y m d : Int) : Int :=
  let yAdj : Int := if m ≤ 1 then y - 1 else y
  let era : Int := yAdj / 400
  let yoe : Int := yAdj - era * 400
  let mp : Int := if 2 ≤ m then m - 2 else m + 10
  let doy : Int := (153 * mp + 2) / 5 + d - 1
  let doe : Int := yoe * 365 + yoe / 4 - yoe / 100 + doy
  era * 146097 + doe - 719468

/-- Civil date `(y, m, d)` (month 0-based) of an epoch day number. -/
def civilFromDays (z0 : Int) : Int × Int × Int :=
  let z : Int := z0 + 719468
  let era : Int := z / 146097
  let doe : Int := z - era * 146097
  let yoe : Int := (doe - doe / 1460 + doe / 36524 - doe / 146096) / 365
  let yAdj : Int := yoe + era * 400
  let doy : Int := doe - (365 * yoe + yoe / 4 - yoe / 100)
  let mp : Int := (5 * doy + 2) / 153
  let d : Int := doy - (153 * mp + 2) / 5 + 1
  let m : Int := if mp < 10 then mp + 2 else mp - 10
  (if m ≤ 1 then yAdj + 1 else yAdj, m, d)

/-- Number of days of month `m` (0-based) of year `y` in the proleptic
Gregorian calendar. -/
def daysInMonth (y m : Int) : Int :=
  if m = 1 then
    if y % 4 = 0 ∧ (y % 100 ≠ 0 ∨ y % 400 = 0) then 29 else 28
  else if m = 3 ∨ m = 5 ∨ m = 8 ∨ m = 10 then 30
  else 31

theorem daysInMonth_bounds (y m : Int) : 28 ≤ daysInMonth y m ∧ daysInMonth y m ≤ 31 := by
  unfold daysInMonth
  split_ifs <;> omega

theorem daysFromCivil_day_shift (y m d : Int) :
    daysFromCivil y m d = daysFromCivil y m 1 + (d - 1) := by
  unfold daysFromCivil
  dsimp only
  omega

/-- Verification-condition form of `daysFromCivil`: once every intermediate of
the algorithm is named by an equation, the function value is the final
expression. -/
theorem daysFromCivil_eq (y m d yAdj era yoe mp doy doe : Int)
    (h1 : yAdj = if m ≤ 1 then y - 1 else y) (h2 : era = yAdj / 400)
    (h3 : yoe = yAdj - era * 400) (h4 : mp = if 2 ≤ m then m - 2 else m + 10)
    (h5 : doy = (153 * mp + 2) / 5 + d - 1)
    (h6 : doe = yoe * 365 + yoe / 4 - yoe / 100 + doy) :
    daysFromCivil y m d = era * 146097 + doe - 719468 := by
  subst h6
  subst h5
  subst h4
  subst h3
  subst h2
  subst h1
  rfl

/-- Verification-condition form of `civilFromDays`. -/
theorem civilFromDays_eq (z0 era doe yoe doy mp m d y : Int)
    (h1 : era = (z0 + 719468) / 146097)
    (h2 : doe = z0 + 719468 - era * 146097)
    (h3 : yoe = (doe - doe / 1460 + doe / 36524 - doe / 146096) / 365)
    (h4 : doy = doe - (365 * yoe + yoe / 4 - yoe / 100))
    (h5 : mp = (5 * doy + 2) / 153)
    (h6 : d = doy - (153 * mp + 2) / 5 + 1)
    (h7 : m = if mp < 10 then mp + 2 else mp - 10)
    (h8 : y = if m ≤ 1 then yoe + era * 400 + 1 else yoe + era * 400) :
    civilFromDays z0 = (y, m, d) := by
  subst h8
  subst h7
  subst h6
  subst h5
  subst h4
  subst h3
  subst h2
  subst h1
  rfl

theorem quotient_1460 (c t u doy doe : Int) (hc0 : 0 ≤ c) (hc1 : c ≤ 3)
    (ht0 : 0 ≤ t) (ht1 : t ≤ 24) (hu0 : 0 ≤ u) (hu1 : u ≤ 3)
    (h2 : 0 ≤ doy) (h2b : doy ≤ 365)
    (hdoe : doe = 36524 * c + 1461 * t + 365 * u + doy) :
    (doe / 1460 = 25 * c + t ∧ 24 * c + t + 365 * u + doy < 1460) ∨
      (doe / 1460 = 25 * c + t + 1 ∧ 1460 ≤ 24 * c + t + 365 * u + doy) := by
  omega

theorem quotient_36524 (c t u doy doe : Int) (hc0 : 0 ≤ c) (hc1 : c ≤ 3)
    (ht0 : 0 ≤ t) (ht1 : t ≤ 24) (hu0 : 0 ≤ u) (hu1 : u ≤ 3)
    (h2 : 0 ≤ doy) (h2b : doy ≤ 365)
    (hdoe : doe = 36524 * c + 1461 * t + 365 * u + doy) :
    (doe / 36524 = c ∧ 1461 * t + 365 * u + doy < 36524) ∨
      (doe / 36524 = c + 1 ∧ 36524 ≤ 1461 * t + 365 * u + doy) := by
  omega

theorem quotient_146096 (c t u doy doe : Int) (hc0 : 0 ≤ c) (hc1 : c ≤ 3)
    (ht0 : 0 ≤ t) (ht1 : t ≤ 24) (hu0 : 0 ≤ u) (hu1 : u ≤ 3)
    (h2 : 0 ≤ doy) (h2b : doy ≤ 365)
    (hdoe : doe = 36524 * c + 1461 * t + 365 * u + doy) :
    (doe / 146096 = 0 ∧ doe < 146096) ∨ (doe / 146096 = 1 ∧ doe = 146096) := by
  omega

theorem yoe_recover_decomposed (c t u doy doe q1 q2 q3 : Int)
    (hc0 : 0 ≤ c) (hc1 : c ≤ 3) (ht0 : 0 ≤ t) (ht1 : t ≤ 24)
    (hu0 : 0 ≤ u) (hu1 : u ≤ 3) (h2 : 0 ≤ doy)
    (h3 : doy ≤ 364 ∨ (doy = 365 ∧ u = 3 ∧ (t ≠ 24 ∨ c = 3)))
    (hdoe : doe = 36524 * c + 1461 * t + 365 * u + doy)
    (hq1 : (q1 = 25 * c + t ∧ 24 * c + t + 365 * u + doy < 1460) ∨
      (q1 = 25 * c + t + 1 ∧ 1460 ≤ 24 * c + t + 365 * u + doy))
    (hq2 : (q2 = c ∧ 1461 * t + 365 * u + doy < 36524) ∨
      (q2 = c + 1 ∧ 36524 ≤ 1461 * t + 365 * u + doy))
    (hq3 : (q3 = 0 ∧ doe < 146096) ∨ (q3 = 1 ∧ doe = 146096)) :
    (doe - q1 + q2 - q3) / 365 = 100 * c + 4 * t + u := by
  omega

/-- Recovery of the year-of-era from the day-of-era in the civil-from-days
algorithm. -/
theorem yoe_recover (yoe doy doe : Int) (h0 : 0 ≤ yoe) (h1 : yoe ≤ 399) (h2 : 0 ≤ doy)
    (h3 : doy ≤ 364 ∨ (doy = 365 ∧ (yoe + 1) % 4 = 0 ∧ ((yoe + 1) % 100 ≠ 0 ∨ yoe = 399)))
    (hdoe : doe = yoe * 365 + yoe / 4 - yoe / 100 + doy) :
    (doe - doe / 1460 + doe / 36524 - doe / 146096) / 365 = yoe := by
  obtain ⟨c, t, u, hyoe, hc0, hc1, ht0, ht1, hu0, hu1, ha, hb⟩ :
      ∃ c t u, yoe = 100 * c + 4 * t + u ∧ 0 ≤ c ∧ c ≤ 3 ∧ 0 ≤ t ∧ t ≤ 24 ∧ 0 ≤ u ∧ u ≤ 3 ∧
        yoe / 4 = 25 * c + t ∧ yoe / 100 = c :=
    ⟨yoe / 100, yoe % 100 / 4, yoe % 4, by omega, by omega, by omega, by omega, by omega,
      by omega, by omega, by omega, by omega⟩
  have h3a : doy ≤ 364 ∨ (doy = 365 ∧ u = 3 ∧ (t ≠ 24 ∨ c = 3)) := by omega
  have hdoe2 : doe = 36524 * c + 1461 * t + 365 * u + doy := by omega
  clear h3 hdoe ha hb h0 h1
  have hq1 := quotient_1460 c t u doy doe hc0 hc1 ht0 ht1 hu0 hu1 h2 (by omega) hdoe2
  have hq2 := quotient_36524 c t u doy doe hc0 hc1 ht0 ht1 hu0 hu1 h2 (by omega) hdoe2
  have hq3 := quotient_146096 c t u doy doe hc0 hc1 ht0 ht1 hu0 hu1 h2 (by omega) hdoe2
  have hf := yoe_recover_decomposed c t u doy doe (doe / 1460) (doe / 36524) (doe / 146096)
    hc0 hc1 ht0 ht1 hu0 hu1 h2 h3a hdoe2 hq1 hq2 hq3
  omega

/-- Recovery of the shifted month index and the day of month from the
day-of-year in the civil-from-days algorithm. -/
theorem mp_recover (mp d doy : Int) (hmp0 : 0 ≤ mp) (hmp1 : mp ≤ 11)
    (hd0 : 1 ≤ d) (hd1 : d ≤ 31)
    (hd30 : (mp = 1 ∨ mp = 3 ∨ mp = 6 ∨ mp = 8) → d ≤ 30)
    (hd29 : mp = 11 → d ≤ 29)
    (hdoy : doy = (153 * mp + 2) / 5 + d - 1) :
    (5 * doy + 2) / 153 = mp ∧ doy - (153 * mp + 2) / 5 + 1 = d := by
  interval_cases mp <;> omega

/-- Round trip: converting a valid civil date to an epoch day and back is the
identity. -/
theorem civilFromDays_daysFromCivil (y m d : Int) (hm0 : 0 ≤ m) (hm1 : m ≤ 11)
    (hd0 : 1 ≤ d) (hd1 : d ≤ daysInMonth y m) :
    civilFromDays (daysFromCivil y m d) = (y, m, d) := by
  obtain ⟨yAdj, era, yoe, mp, doy, doe, h1, h2, h3, h4, h5, h6⟩ :
      ∃ yAdj era yoe mp doy doe, yAdj = (if m ≤ 1 then y - 1 else y) ∧ era = yAdj / 400 ∧
        yoe = yAdj - era * 400 ∧ mp = (if 2 ≤ m then m - 2 else m + 10) ∧
        doy = (153 * mp + 2) / 5 + d - 1 ∧ doe = yoe * 365 + yoe / 4 - yoe / 100 + doy :=
    ⟨_, _, _, _, _, _, rfl, rfl, rfl, rfl, rfl, rfl⟩
  rw [daysFromCivil_eq y m d yAdj era yoe mp doy doe h1 h2 h3 h4 h5 h6]
  have hsplit : (2 ≤ m ∧ yAdj = y ∧ mp = m - 2) ∨ (m ≤ 1 ∧ yAdj = y - 1 ∧ mp = m + 10) := by
    rcases le_or_lt 2 m with h | h
    · exact Or.inl ⟨h, by rw [h1, if_neg (by omega)], by rw [h4, if_pos h]⟩
    · exact Or.inr ⟨by omega, by rw [h1, if_pos (by omega)], by rw [h4, if_neg (by omega)]⟩
  clear h1 h4
  have hd31 : d ≤ 31 := by
    have := daysInMonth_bounds y m
    omega
  have hdleap : m = 1 → d ≤ 28 ∨ (d ≤ 29 ∧ y % 4 = 0 ∧ (y % 100 ≠ 0 ∨ y % 400 = 0)) := by
    intro hm1e
    unfold daysInMonth at hd1
    rw [if_pos hm1e] at hd1
    by_cases hly : y % 4 = 0 ∧ (y % 100 ≠ 0 ∨ y % 400 = 0)
    · rw [if_pos hly] at hd1
      exact Or.inr ⟨hd1, hly.1, hly.2⟩
    · rw [if_neg hly] at hd1
      exact Or.inl hd1
  have h30 : (m = 3 ∨ m = 5 ∨ m = 8 ∨ m = 10) → d ≤ 30 := by
    intro hm
    unfold daysInMonth at hd1
    rw [if_neg (by omega), if_pos hm] at hd1
    exact hd1
  clear hd1
  have hyoe0 : 0 ≤ yoe ∧ yoe ≤ 399 := by omega
  have hmp : 0 ≤ mp ∧ mp ≤ 11 := by omega
  have hmp30 : (mp = 1 ∨ mp = 3 ∨ mp = 6 ∨ mp = 8) → d ≤ 30 := by
    intro hx
    apply h30
    omega
  have hmp29 : mp = 11 → d ≤ 29 := by
    intro hx
    have := hdleap (by omega)
    omega
  have hdoyB : 0 ≤ doy ∧ doy ≤ 365 := by omega
  have hleap : doy ≤ 364 ∨
      (doy = 365 ∧ (yoe + 1) % 4 = 0 ∧ ((yoe + 1) % 100 ≠ 0 ∨ yoe = 399)) := by
    omega
  have hdoe : 0 ≤ doe ∧ doe ≤ 146096 := by omega
  refine civilFromDays_eq (era * 146097 + doe - 719468) era doe yoe doy mp m d y
    (by omega) (by omega) ?_ ?_ ?_ ?_ ?_ ?_
  · exact (yoe_recover yoe doy doe hyoe0.1 hyoe0.2 hdoyB.1 hleap h6).symm
  · omega
  · exact ((mp_recover mp d doy hmp.1 hmp.2 hd0 hd31 hmp30 hmp29 h5).1).symm
  · exact ((mp_recover mp d doy hmp.1 hmp.2 hd0 hd31 hmp30 hmp29 h5).2).symm
  · rcases hsplit with ⟨ha, hb, hc⟩ | ⟨ha, hb, hc⟩
    · rw [if_pos (by omega)]
      omega
    · rw [if_neg (by omega)]
      omega
  · rcases hsplit with ⟨ha, hb, hc⟩ | ⟨ha, hb, hc⟩
    · rw [if_neg (by omega)]
      omega
    · rw [if_pos (by omega)]
      omega

/-- Epoch day of the ECMAScript constructor `new Date(y, m, d)` (local zone);
out-of-range month and day arguments are normalized arithmetically, the way
ECMAScript does. -/
def jsMakeDate (y m d : Int) : Int :=
  daysFromCivil (y + m / 12) (m % 12) 1 + (d - 1)

set_option maxHeartbeats 2000000 in
/-- First day of the next month is the first day of this month plus the
month's length. -/
theorem month_start_diff (y m : Int) (hm0 : 0 ≤ m) (hm1 : m ≤ 11) :
    jsMakeDate y (m + 1) 1 = daysFromCivil y m 1 + daysInMonth y m := by
  unfold jsMakeDate daysFromCivil daysInMonth
  dsimp only
  interval_cases m <;> split_ifs <;> omega

theorem jsMakeDate_id (y m : Int) (hm0 : 0 ≤ m) (hm1 : m ≤ 11) :
    jsMakeDate y m 1 = daysFromCivil y m 1 := by
  unfold jsMakeDate
  have h1 : y + m / 12 = y := by omega
  have h2 : m % 12 = m := by omega
  rw [h1, h2]
  omega

/-- `new Date(year, month + 1, 0).getDate()` — the day count of the month as
the source computes it. -/
def jsDaysInMonth (year month : Int) : Int :=
  (civilFromDays (jsMakeDate year (month + 1) 0)).2.2

theorem jsDaysInMonth_eq (year month : Int) (hm0 : 0 ≤ month) (hm1 : month ≤ 11) :
    jsDaysInMonth year month = daysInMonth year month := by
  unfold jsDaysInMonth
  have h0 : jsMakeDate year (month + 1) 0 = jsMakeDate year (month + 1) 1 - 1 := by
    unfold jsMakeDate
    omega
  have h1 : jsMakeDate year (month + 1) 0 =
      daysFromCivil year month (daysInMonth year month) := by
    rw [h0, month_start_diff year month hm0 hm1,
      daysFromCivil_day_shift year month (daysInMonth year month)]
    omega
  have hb := daysInMonth_bounds year month
  rw [h1, civilFromDays_daysFromCivil year month (daysInMonth year month) hm0 hm1
    (by omega) le_rfl]

/-- Local epoch day of a UTC timestamp under the fixed offset `tz`. -/
def localDays (tz t : Int) : Int := (t + tz) / dayMs

/-- Local civil date of a UTC timestamp. -/
def localCivil (tz t : Int) : Int × Int × Int := civilFromDays (localDays tz t)

/-- Model of `getLocalDayRange` (databaseService.ts): local midnight of the
day containing `date` through local 23:59:59.999 of the same day. -/
def getLocalDayRange (tz date : Int) : Int × Int :=
  (dayMs * localDays tz date - tz, dayMs * localDays tz date - tz + (dayMs - 1))

/-- Model of `getLocalMonthRange` (databaseService.ts): midnight of
`new Date(year, month, 1)` through 23:59:59.999 of
`new Date(year, month + 1, 0)`, local time. -/
def getLocalMonthRange (tz month year : Int) : Int × Int :=
  (dayMs * jsMakeDate year month 1 - tz,
   dayMs * jsMakeDate year (month + 1) 0 - tz + (dayMs - 1))

theorem mem_day_range_iff (tz t u : Int) :
    ((getLocalDayRange tz t).1 ≤ u ∧ u ≤ (getLocalDayRange tz t).2) ↔
      localDays tz u = localDays tz t := by
  unfold getLocalDayRange localDays dayMs
  dsimp only
  omega

/-- The timestamp lies in calendar month `(month, year)` in local time: its
local day falls on or after the first day of that month and before the first
day of the next month. -/
def inLocalMonth (tz year month t : Int) : Prop :=
  daysFromCivil year month 1 ≤ localDays tz t ∧
    localDays tz t < daysFromCivil year month 1 + daysInMonth year month

instance (tz year month t : Int) : Decidable (inLocalMonth tz year month t) := by
  unfold inLocalMonth
  infer_instance

theorem mem_month_range_iff (tz year month t : Int) (hm0 : 0 ≤ month) (hm1 : month ≤ 11) :
    ((getLocalMonthRange tz month year).1 ≤ t ∧ t ≤ (getLocalMonthRange tz month year).2) ↔
      inLocalMonth tz year month t := by
  have hnext : jsMakeDate year (month + 1) 0 =
      daysFromCivil year month 1 + daysInMonth year month - 1 := by
    have h0 : jsMakeDate year (month + 1) 0 = jsMakeDate year (month + 1) 1 - 1 := by
      unfold jsMakeDate
      omega
    rw [h0, month_start_diff year month hm0 hm1]
  have hfirst := jsMakeDate_id year month hm0 hm1
  unfold getLocalMonthRange inLocalMonth localDays dayMs
  dsimp only
  omega

/-- A timestamp in month `(month, year)` has local civil date
`(year, month, d)` for the day offset `d` within the month. -/
theorem inLocalMonth_civil (tz year month t : Int) (hm0 : 0 ≤ month) (hm1 : month ≤ 11)
    (h : inLocalMonth tz year month t) :
    localCivil tz t = (year, month, localDays tz t - daysFromCivil year month 1 + 1) ∧
      1 ≤ localDays tz t - daysFromCivil year month 1 + 1 ∧
      localDays tz t - daysFromCivil year month 1 + 1 ≤ daysInMonth year month := by
  obtain ⟨h1, h2⟩ := h
  have hz : localDays tz t =
      daysFromCivil year month (localDays tz t - daysFromCivil year month 1 + 1) := by
    rw [daysFromCivil_day_shift]
    omega
  refine ⟨?_, by omega, by omega⟩
  unfold localCivil
  conv_lhs => rw [hz]
  exact civilFromDays_daysFromCivil year month _ hm0 hm1 (by omega) (by omega)

/-- Two-digit zero-padded decimal string (month and day components of the
en-CA date format). -/
def pad2 (n : Int) : String :=
  String.mk [Nat.digitChar (n.toNat / 10 % 10), Nat.digitChar (n.toNat % 10)]

/-- Four-digit zero-padded decimal string (year component of the en-CA date
format). -/
def pad4 (n : Int) : String :=
  String.mk [Nat.digitChar (n.toNat / 1000 % 10), Nat.digitChar (n.toNat / 100 % 10),
    Nat.digitChar (n.toNat / 10 % 10), Nat.digitChar (n.toNat % 10)]

/-- The `YYYY-MM-DD` rendering of a civil date (month converted to 1-based). -/
def formatCivilDate (c : Int × Int × Int) : String :=
  pad4 c.1 ++ "-" ++ pad2 (c.2.1 + 1) ++ "-" ++ pad2 c.2.2

/-- Model of `new Date(t).toLocaleDateString` with the en-CA locale: the
`YYYY-MM-DD` key of the local civil date of timestamp `t`. -/
def dateKey (tz t : Int) : String := formatCivilDate (localCivil tz t)

theorem formatCivilDate_data (y m d : Int) :
    (formatCivilDate (y, m, d)).data =
      [Nat.digitChar (y.toNat / 1000 % 10), Nat.digitChar (y.toNat / 100 % 10),
       Nat.digitChar (y.toNat / 10 % 10), Nat.digitChar (y.toNat % 10), '-',
       Nat.digitChar ((m + 1).toNat / 10 % 10), Nat.digitChar ((m + 1).toNat % 10), '-',
       Nat.digitChar (d.toNat / 10 % 10), Nat.digitChar (d.toNat % 10)] := rfl

/-- Decidable check that a string has the zero-padded shape `YYYY-MM-DD`. -/
def isDateShape (s : String) : Bool :=
  match s.data with
  | [y1, y2, y3, y4, s1, m1, m2, s2, d1, d2] =>
      y1.isDigit && y2.isDigit && y3.isDigit && y4.isDigit && (s1 == '-') &&
        m1.isDigit && m2.isDigit && (s2 == '-') && d1.isDigit && d2.isDigit
  | _ => false

theorem digitChar_isDigit10 : ∀ k : Fin 10, (Nat.digitChar k.val).isDigit = true := by decide

theorem digitChar_inj10 : ∀ a b : Fin 10,
    Nat.digitChar a.val = Nat.digitChar b.val → a.val = b.val := by decide

theorem digitChar_mod_isDigit (n : Nat) : (Nat.digitChar (n % 10)).isDigit = true :=
  digitChar_isDigit10 ⟨n % 10, Nat.mod_lt _ (by norm_num)⟩

theorem isDateShape_formatCivilDate (y m d : Int) :
    isDateShape (formatCivilDate (y, m, d)) = true := by
  unfold isDateShape
  rw [formatCivilDate_data]
  simp [digitChar_mod_isDigit]

/-- Distinct valid days of the same month format to distinct keys. -/
theorem formatCivilDate_day_inj (y m d1 d2 : Int) (h1 : 1 ≤ d1) (h2 : d1 ≤ 31)
    (h3 : 1 ≤ d2) (h4 : d2 ≤ 31)
    (h : formatCivilDate (y, m, d1) = formatCivilDate (y, m, d2)) : d1 = d2 := by
  have hdata : (formatCivilDate (y, m, d1)).data = (formatCivilDate (y, m, d2)).data := by
    rw [h]
  rw [formatCivilDate_data, formatCivilDate_data] at hdata
  simp only [List.cons.injEq, and_true] at hdata
  have e1 : d1.toNat / 10 % 10 = d2.toNat / 10 % 10 :=
    digitChar_inj10 ⟨d1.toNat / 10 % 10, Nat.mod_lt _ (by norm_num)⟩
      ⟨d2.toNat / 10 % 10, Nat.mod_lt _ (by norm_num)⟩ (by tauto)
  have e2 : d1.toNat % 10 = d2.toNat % 10 :=
    digitChar_inj10 ⟨d1.toNat % 10, Nat.mod_lt _ (by norm_num)⟩
      ⟨d2.toNat % 10, Nat.mod_lt _ (by norm_num)⟩ (by tauto)
  omega

/-- Stable insertion keeping keys in descending order (model of the effect of
a SQL `ORDER BY key DESC`). -/
def insertByKeyDesc (key : α → Int) (a : α) : List α → List α
  | [] => [a]
  | b :: l => if key a ≤ key b then b :: insertByKeyDesc key a l else a :: b :: l

/-- Sorting by descending key (model of `ORDER BY key DESC`). -/
def sortByKeyDesc (key : α → Int) : List α → List α
  | [] => []
  | a :: l => insertByKeyDesc key a (sortByKeyDesc key l)

theorem insertByKeyDesc_perm (key : α → Int) (a : α) (l : List α) :
    (insertByKeyDesc key a l).Perm (a :: l) := by
  induction l with
  | nil => exact List.Perm.refl _
  | cons b l ih =>
      unfold insertByKeyDesc
      split_ifs
      · exact ((ih.cons b).trans (List.Perm.swap a b l)).symm.symm
      · exact List.Perm.refl _

theorem sortByKeyDesc_perm (key : α → Int) (l : List α) :
    (sortByKeyDesc key l).Perm l := by
  induction l with
  | nil => exact List.Perm.refl _
  | cons a l ih =>
      exact (insertByKeyDesc_perm key a (sortByKeyDesc key l)).trans (ih.cons a)

theorem insertByKeyDesc_pairwise (key : α → Int) (a : α) (l : List α)
    (h : List.Pairwise (fun x y => key y ≤ key x) l) :
    List.Pairwise (fun x y => key y ≤ key x) (insertByKeyDesc key a l) := by
  induction l with
  | nil => exact List.pairwise_singleton _ a
  | cons b l ih =>
      unfold insertByKeyDesc
      split_ifs with hle
      · refine List.Pairwise.cons ?_ (ih h.tail)
        intro c hc
        rcases List.mem_cons.mp ((insertByKeyDesc_perm key a l).mem_iff.mp hc) with hc | hc
        · rw [hc]
          exact hle
        · exact List.rel_of_pairwise_cons h hc
      · refine List.Pairwise.cons ?_ h
        intro c hc
        rcases List.mem_cons.mp hc with hc | hc
        · rw [hc]
          omega
        · have := List.rel_of_pairwise_cons h hc
          omega

theorem sortByKeyDesc_pairwise (key : α → Int) (l : List α) :
    List.Pairwise (fun x y => key y ≤ key x) (sortByKeyDesc key l) := by
  induction l with
  | nil => exact List.Pairwise.nil
  | cons a l ih => exact insertByKeyDesc_pairwise key a (sortByKeyDesc key l) ih

/-- One logged meal (the Meal interface of MealContext.tsx). -/
structure Meal where
  id : String
  timestamp : Int
  imageUri : String
  foodItems : List String
  calories : Int
  confidence : Int
deriving DecidableEq, Repr

/-- Daily nutrition goals (databaseService.ts). -/
structure DailyGoals where
  calories : Int
  protein : Int
  carbs : Int
  fat : Int
deriving DecidableEq, Repr

/-- User profile (databaseService.ts); carried for completeness. -/
structure UserProfile where
  name : String
  weight : Int
  height : Int
  age : Int
  activityLevel : String
  goal : String
deriving DecidableEq, Repr

/-- One value of the `dailyAverages` mapping of a monthly summary. -/
structure DayAggregate where
  calories : Int
  meals : Nat
deriving DecidableEq, Repr

/-- Monthly nutrition summary (databaseService.ts).  The `dailyAverages` JS
object is modelled as an association list in property-insertion order. -/
structure MonthlySummary where
  month : Int
  year : Int
  totalCalories : Int
  averageCalories : ℚ
  totalMeals : Nat
  dailyAverages : List (String × DayAggregate)
deriving DecidableEq, Repr

/-- One step of the `forEach` body of `getMonthlySummary`: create the entry
for the key on first use, then accumulate calories and meal count. -/
def bumpDaily (k : String) (cal : Int) :
    List (String × DayAggregate) → List (String × DayAggregate)
  | [] => [(k, ⟨cal, 1⟩)]
  | e :: rest =>
      if e.1 = k then (e.1, ⟨e.2.calories + cal, e.2.meals + 1⟩) :: rest
      else e :: bumpDaily k cal rest

/-- The `dailyAverages` object built by `getMonthlySummary` from a meal
list. -/
def dailyAveragesOf (tz : Int) (meals : List Meal) : List (String × DayAggregate) :=
  meals.foldl (fun acc meal => bumpDaily (dateKey tz meal.timestamp) meal.calories acc) []

/-- JS object property lookup on the association-list model. -/
def lookupKey : List (String × DayAggregate) → String → Option DayAggregate
  | [], _ => none
  | e :: rest, k => if e.1 = k then some e.2 else lookupKey rest k

/-- Total calories of the meals of a day key. -/
def daySpecCal (tz : Int) (meals : List Meal) (k : String) : Int :=
  ((meals.filter fun meal => dateKey tz meal.timestamp == k).map fun meal => meal.calories).sum

/-- Number of meals of a day key. -/
def daySpecCount (tz : Int) (meals : List Meal) (k : String) : Nat :=
  (meals.filter fun meal => dateKey tz meal.timestamp == k).length

def combineAgg : Option DayAggregate → Int → Nat → Option DayAggregate
  | none, c, n => if n = 0 then none else some ⟨c, n⟩
  | some a, c, n => some ⟨a.calories + c, a.meals + n⟩

theorem lookupKey_bumpDaily (k q : String) (cal : Int) (acc : List (String × DayAggregate)) :
    lookupKey (bumpDaily k cal acc) q =
      if q = k then
        (match lookupKey acc k with
          | none => some ⟨cal, 1⟩
          | some a => some ⟨a.calories + cal, a.meals + 1⟩)
      else lookupKey acc q := by
  induction acc with
  | nil =>
      by_cases h : q = k
      · subst h
        simp [bumpDaily, lookupKey]
      · have h2 : ¬ k = q := fun he => h he.symm
        simp [bumpDaily, lookupKey, h, h2]
  | cons e rest ih =>
      by_cases h1 : e.1 = k
      · by_cases h2 : q = k
        · subst h2
          simp [bumpDaily, lookupKey, h1]
        · have h3 : ¬ k = q := fun he => h2 he.symm
          simp [bumpDaily, lookupKey, h1, h2, h3]
      · by_cases h2 : e.1 = q
        · have hqk : ¬ q = k := fun he => h1 (he ▸ h2)
          simp [bumpDaily, lookupKey, h1, h2, hqk]
        · simp [bumpDaily, lookupKey, h1, h2, ih]

theorem lookupKey_foldl (tz : Int) (meals : List Meal)
    (acc : List (String × DayAggregate)) (q : String) :
    lookupKey
        (meals.foldl (fun a meal => bumpDaily (dateKey tz meal.timestamp) meal.calories a) acc)
        q =
      combineAgg (lookupKey acc q) (daySpecCal tz meals q) (daySpecCount tz meals q) := by
  induction meals generalizing acc with
  | nil =>
      rcases h : lookupKey acc q with _ | a <;>
        simp [daySpecCal, daySpecCount, combineAgg, h]
  | cons meal rest ih =>
      simp only [List.foldl_cons]
      rw [ih, lookupKey_bumpDaily]
      by_cases h : dateKey tz meal.timestamp = q
      · subst h
        rw [if_pos rfl]
        simp only [daySpecCal, daySpecCount, List.filter_cons, beq_self_eq_true, if_true,
          List.map_cons, List.sum_cons, List.length_cons]
        rcases hl : lookupKey acc (dateKey tz meal.timestamp) with _ | a
        · simp only [combineAgg]
          rw [if_neg (by simp)]
          simp only [Option.some.injEq, DayAggregate.mk.injEq]
          constructor <;> ring
        · simp only [combineAgg, Option.some.injEq, DayAggregate.mk.injEq]
          constructor <;> ring
      · have hne : ¬ q = dateKey tz meal.timestamp := fun he => h he.symm
        rw [if_neg hne]
        have hfilter : (dateKey tz meal.timestamp == q) = false := by
          simp [h]
        simp [daySpecCal, daySpecCount, List.filter_cons, hfilter]

theorem lookupKey_dailyAveragesOf (tz : Int) (meals : List Meal) (q : String) :
    lookupKey (dailyAveragesOf tz meals) q =
      if daySpecCount tz meals q = 0 then none
      else some ⟨daySpecCal tz meals q, daySpecCount tz meals q⟩ := by
  unfold dailyAveragesOf
  rw [lookupKey_foldl]
  rfl

/-- Total of the meal counters of a dailyAverages object. -/
def sumMeals (l : List (String × DayAggregate)) : Nat :=
  (l.map fun e => e.2.meals).sum

theorem sumMeals_bumpDaily (k : String) (cal : Int) (acc : List (String × DayAggregate)) :
    sumMeals (bumpDaily k cal acc) = sumMeals acc + 1 := by
  induction acc with
  | nil => simp [bumpDaily, sumMeals]
  | cons e rest ih =>
      unfold bumpDaily
      split_ifs with h
      · simp only [sumMeals, List.map_cons, List.sum_cons]
        ring
      · simp only [sumMeals, List.map_cons, List.sum_cons] at ih ⊢
        rw [ih]
        ring

theorem sumMeals_foldl (tz : Int) (meals : List Meal) (acc : List (String × DayAggregate)) :
    sumMeals
        (meals.foldl (fun a meal => bumpDaily (dateKey tz meal.timestamp) meal.calories a) acc) =
      sumMeals acc + meals.length := by
  induction meals generalizing acc with
  | nil => simp
  | cons meal rest ih =>
      simp only [List.foldl_cons, List.length_cons]
      rw [ih, sumMeals_bumpDaily]
      omega

theorem sumMeals_dailyAveragesOf (tz : Int) (meals : List Meal) :
    sumMeals (dailyAveragesOf tz meals) = meals.length := by
  unfold dailyAveragesOf
  rw [sumMeals_foldl]
  simp [sumMeals]

theorem mem_bumpDaily (k : String) (cal : Int) (acc : List (String × DayAggregate))
    (e : String × DayAggregate) (he : e ∈ bumpDaily k cal acc) :
    (e.1 = k ∨ ∃ a ∈ acc, e.1 = a.1) ∧
      (1 ≤ e.2.meals ∨ ∃ a ∈ acc, e.2.meals = a.2.meals) := by
  induction acc with
  | nil =>
      simp only [bumpDaily, List.mem_singleton] at he
      subst he
      exact ⟨Or.inl rfl, Or.inl (Nat.le_refl 1)⟩
  | cons b rest ih =>
      unfold bumpDaily at he
      split_ifs at he with hb
      · rcases List.mem_cons.mp he with he | he
        · subst he
          exact ⟨Or.inl hb, Or.inl (Nat.succ_le_succ (Nat.zero_le _))⟩
        · exact ⟨Or.inr ⟨e, List.mem_cons_of_mem b he, rfl⟩,
            Or.inr ⟨e, List.mem_cons_of_mem b he, rfl⟩⟩
      · rcases List.mem_cons.mp he with he | he
        · subst he
          exact ⟨Or.inr ⟨e, List.mem_cons_self e rest, rfl⟩,
            Or.inr ⟨e, List.mem_cons_self e rest, rfl⟩⟩
        · rcases ih he with ⟨h1, h2⟩
          refine ⟨?_, ?_⟩
          · rcases h1 with h1 | ⟨a, ha, h1⟩
            · exact Or.inl h1
            · exact Or.inr ⟨a, List.mem_cons_of_mem b ha, h1⟩
          · rcases h2 with h2 | ⟨a, ha, h2⟩
            · exact Or.inl h2
            · exact Or.inr ⟨a, List.mem_cons_of_mem b ha, h2⟩

theorem mem_dailyAveragesOf_aux (tz : Int) (meals : List Meal)
    (acc : List (String × DayAggregate)) (e : String × DayAggregate)
    (he : e ∈ meals.foldl
      (fun a meal => bumpDaily (dateKey tz meal.timestamp) meal.calories a) acc) :
    ((∃ meal ∈ meals, e.1 = dateKey tz meal.timestamp) ∨ ∃ a ∈ acc, e.1 = a.1) ∧
      (1 ≤ e.2.meals ∨ ∃ a ∈ acc, e.2.meals = a.2.meals) := by
  induction meals generalizing acc with
  | nil =>
      simp only [List.foldl_nil] at he
      exact ⟨Or.inr ⟨e, he, rfl⟩, Or.inr ⟨e, he, rfl⟩⟩
  | cons meal rest ih =>
      simp only [List.foldl_cons] at he
      rcases ih (bumpDaily (dateKey tz meal.timestamp) meal.calories acc) he with ⟨h1, h2⟩
      constructor
      · rcases h1 with ⟨w, hw, h1⟩ | ⟨a, ha, h1⟩
        · exact Or.inl ⟨w, List.mem_cons_of_mem meal hw, h1⟩
        · rcases (mem_bumpDaily _ _ _ _ ha).1 with hk | ⟨b, hb, hk⟩
          · exact Or.inl ⟨meal, List.mem_cons_self meal rest, h1.trans hk⟩
          · exact Or.inr ⟨b, hb, h1.trans hk⟩
      · rcases h2 with h2 | ⟨a, ha, h2⟩
        · exact Or.inl h2
        · rcases (mem_bumpDaily _ _ _ _ ha).2 with hk | ⟨b, hb, hk⟩
          · omega
          · exact Or.inr ⟨b, hb, by omega⟩

/-- Every entry of the dailyAverages object comes from a meal of the input
list and counts at least one meal. -/
theorem mem_dailyAveragesOf (tz : Int) (meals : List Meal) (e : String × DayAggregate)
    (he : e ∈ dailyAveragesOf tz meals) :
    (∃ meal ∈ meals, e.1 = dateKey tz meal.timestamp) ∧ 1 ≤ e.2.meals := by
  have h := mem_dailyAveragesOf_aux tz meals [] e he
  rcases h with ⟨h1, h2⟩
  constructor
  · rcases h1 with h1 | ⟨a, ha, h1⟩
    · exact h1
    · exact absurd ha (List.not_mem_nil a)
  · rcases h2 with h2 | ⟨a, ha, h2⟩
    · exact h2
    · exact absurd ha (List.not_mem_nil a)

/-- State of the in-memory database (the caches of `InMemoryDatabase`; the
AsyncStorage copy always mirrors the cache, so it is not carried
separately). -/
structure DBState where
  mealsCache : List Meal := []
  goalsCache : Option DailyGoals := none
  profileCache : Option UserProfile := none
deriving DecidableEq, Repr

namespace InMemoryDatabase

def saveMeals (s : DBState) (meals : List Meal) : DBState :=
  { s with mealsCache := meals }

def loadMeals (s : DBState) : List Meal :=
  s.mealsCache

def addMeal (s : DBState) (meal : Meal) : DBState :=
  saveMeals s (s.mealsCache ++ [meal])

def removeMeal (s : DBState) (id : String) : DBState :=
  saveMeals s (s.mealsCache.filter fun meal => meal.id != id)

def getMealsByDate (tz : Int) (s : DBState) (date : Int) : List Meal :=
  s.mealsCache.filter fun meal =>
    decide ((getLocalDayRange tz date).1 ≤ meal.timestamp ∧
      meal.timestamp ≤ (getLocalDayRange tz date).2)

def saveDailyGoals (s : DBState) (goals : DailyGoals) : DBState :=
  { s with goalsCache := some goals }

def loadDailyGoals (s : DBState) : Option DailyGoals :=
  s.goalsCache

def saveUserProfile (s : DBState) (profile : UserProfile) : DBState :=
  { s with profileCache := some profile }

def loadUserProfile (s : DBState) : Option UserProfile :=
  s.profileCache

def clearAllData (_ : DBState) : DBState := {}

def getMealsByMonth (tz : Int) (s : DBState) (month year : Int) : List Meal :=
  s.mealsCache.filter fun meal =>
    decide ((getLocalMonthRange tz month year).1 ≤ meal.timestamp ∧
      meal.timestamp ≤ (getLocalMonthRange tz month year).2)

def getMonthlySummary (tz : Int) (s : DBState) (month year : Int) : MonthlySummary :=
  let meals := getMealsByMonth tz s month year
  let dailyAverages := dailyAveragesOf tz meals
  let totalCalories : Int := (meals.map fun meal => meal.calories).sum
  let totalMeals := meals.length
  let daysInM := jsDaysInMonth year month
  let averageCalories : ℚ :=
    if 0 < totalMeals then (totalCalories : ℚ) / (daysInM : ℚ) else 0
  { month := month, year := year, totalCalories := totalCalories,
    averageCalories := averageCalories, totalMeals := totalMeals,
    dailyAverages := dailyAverages }

def getDailyMeals (tz : Int) (s : DBState) (date : Int) : List Meal :=
  s.mealsCache.filter fun meal =>
    decide ((getLocalDayRange tz date).1 ≤ meal.timestamp ∧
      meal.timestamp ≤ (getLocalDayRange tz date).2)

end InMemoryDatabase

/-- State of the SQLite database: the three tables, rows in insertion order.
Goal and profile rows carry their `updated_at` column. -/
structure SqlState where
  meals : List Meal := []
  dailyGoals : List (DailyGoals × Int) := []
  userProfiles : List (UserProfile × Int) := []
deriving DecidableEq, Repr

namespace SQLiteDatabaseService

/-- The INSERT loop of saveMeals: the meals table has `id TEXT PRIMARY KEY`,
so a duplicate id makes `execSync` throw; rows inserted before the failure
remain (no transaction). -/
def insertMealRows : List Meal → List Meal → List Meal × Option String
  | acc, [] => (acc, none)
  | acc, meal :: rest =>
      if acc.any fun r => r.id == meal.id then (acc, some "Failed to save meals")
      else insertMealRows (acc ++ [meal]) rest

def saveMeals (s : SqlState) (meals : List Meal) : SqlState × Option String :=
  ({ s with meals := (insertMealRows [] meals).1 }, (insertMealRows [] meals).2)

def loadMeals (s : SqlState) : List Meal :=
  sortByKeyDesc (fun meal => meal.timestamp) s.meals

def addMeal (s : SqlState) (meal : Meal) : SqlState × Option String :=
  if s.meals.any fun r => r.id == meal.id then (s, some "Failed to add meal")
  else ({ s with meals := s.meals ++ [meal] }, none)

def removeMeal (s : SqlState) (id : String) : SqlState :=
  { s with meals := s.meals.filter fun meal => meal.id != id }

/-- The day bounds computed inline by the SQLite getMealsByDate coincide with
`getLocalDayRange`. -/
def getMealsByDate (tz : Int) (s : SqlState) (date : Int) : List Meal :=
  sortByKeyDesc (fun meal => meal.timestamp)
    (s.meals.filter fun meal =>
      decide ((getLocalDayRange tz date).1 ≤ meal.timestamp ∧
        meal.timestamp ≤ (getLocalDayRange tz date).2))

def saveDailyGoals (s : SqlState) (goals : DailyGoals) (now : Int) : SqlState :=
  { s with dailyGoals := s.dailyGoals ++ [(goals, now)] }

/-- SELECT ... ORDER BY updated_at DESC LIMIT 1. -/
def loadDailyGoals (s : SqlState) : Option DailyGoals :=
  ((sortByKeyDesc (fun r => r.2) s.dailyGoals).head?).map fun r => r.1

def saveUserProfile (s : SqlState) (profile : UserProfile) (now : Int) : SqlState :=
  { s with userProfiles := s.userProfiles ++ [(profile, now)] }

def loadUserProfile (s : SqlState) : Option UserProfile :=
  ((sortByKeyDesc (fun r => r.2) s.userProfiles).head?).map fun r => r.1

def clearAllData (s : SqlState) : SqlState :=
  { s with meals := [], dailyGoals := [], userProfiles := [] }

/-- The month bounds computed inline by the SQLite getMealsByMonth coincide
with `getLocalMonthRange`. -/
def getMealsByMonth (tz : Int) (s : SqlState) (month year : Int) : List Meal :=
  sortByKeyDesc (fun meal => meal.timestamp)
    (s.meals.filter fun meal =>
      decide ((getLocalMonthRange tz month year).1 ≤ meal.timestamp ∧
        meal.timestamp ≤ (getLocalMonthRange tz month year).2))

def getMonthlySummary (tz : Int) (s : SqlState) (month year : Int) : MonthlySummary :=
  let meals := getMealsByMonth tz s month year
  let dailyAverages := dailyAveragesOf tz meals
  let totalCalories : Int := (meals.map fun meal => meal.calories).sum
  let totalMeals := meals.length
  let daysInM := jsDaysInMonth year month
  let averageCalories : ℚ :=
    if 0 < totalMeals then (totalCalories : ℚ) / (daysInM : ℚ) else 0
  { month := month, year := year, totalCalories := totalCalories,
    averageCalories := averageCalories, totalMeals := totalMeals,
    dailyAverages := dailyAverages }

def getDailyMeals (tz : Int) (s : SqlState) (date : Int) : List Meal :=
  getMealsByDate tz s date

end SQLiteDatabaseService

/-- Input to the facade addMeal: a Meal without id and timestamp. -/
structure MealInput where
  imageUri : String
  foodItems : List String
  calories : Int
  confidence : Int
deriving DecidableEq, Repr

/-- State held by the MealProvider component (MealContext.tsx) together with
the SQLite store it talks to. -/
structure FacadeState where
  meals : List Meal
  monthlySummary : Option MonthlySummary
  currentDate : Int
  dailyGoal : Int
  error : Option String
  db : SqlState
deriving DecidableEq, Repr

namespace MealProvider

/-- Model of MealProvider.addMeal.  `newId` stands for the value of the
random id generator and `now` for Date.now(); Date.now() and the two
`new Date()` calls of the function are taken at the same instant `now`. -/
def addMeal (tz : Int) (st : FacadeState) (input : MealInput) (newId : String)
    (now : Int) : FacadeState :=
  let newMeal : Meal :=
    { id := newId, timestamp := now, imageUri := input.imageUri,
      foodItems := input.foodItems, calories := input.calories,
      confidence := input.confidence }
  let res := SQLiteDatabaseService.addMeal st.db newMeal
  if res.2 = none then
    let meals1 := newMeal :: st.meals
    let currentMonth := (localCivil tz now).2.1
    let currentYear := (localCivil tz now).1
    let mealMonth := (localCivil tz newMeal.timestamp).2.1
    let mealYear := (localCivil tz newMeal.timestamp).1
    if mealMonth = currentMonth ∧ mealYear = currentYear then
      { st with
          db := res.1
          meals := meals1
          error := none
          monthlySummary :=
            some (SQLiteDatabaseService.getMonthlySummary tz res.1 currentMonth currentYear) }
    else { st with db := res.1, meals := meals1, error := none }
  else { st with db := res.1, error := some "Failed to add meal to database" }

end MealProvider

/-- Mutating Meal Store operations, with the wall-clock instant of goal
writes made explicit. -/
inductive StoreOp where
  | addMeal (meal : Meal)
  | removeMeal (id : String)
  | saveMeals (meals : List Meal)
  | saveDailyGoals (goals : DailyGoals) (now : Int)
  | clearAllData
deriving DecidableEq, Repr

def applyMemOp (s : DBState) : StoreOp → DBState
  | .addMeal meal => InMemoryDatabase.addMeal s meal
  | .removeMeal i => InMemoryDatabase.removeMeal s i
  | .saveMeals meals => InMemoryDatabase.saveMeals s meals
  | .saveDailyGoals goals _ => InMemoryDatabase.saveDailyGoals s goals
  | .clearAllData => InMemoryDatabase.clearAllData s

def runMem (s : DBState) : List StoreOp → DBState
  | [] => s
  | op :: rest => runMem (applyMemOp s op) rest

def applySqlOp (s : SqlState) : StoreOp → SqlState
  | .addMeal meal => (SQLiteDatabaseService.addMeal s meal).1
  | .removeMeal i => SQLiteDatabaseService.removeMeal s i
  | .saveMeals meals => (SQLiteDatabaseService.saveMeals s meals).1
  | .saveDailyGoals goals now => SQLiteDatabaseService.saveDailyGoals s goals now
  | .clearAllData => SQLiteDatabaseService.clearAllData s

def runSql (s : SqlState) : List StoreOp → SqlState
  | [] => s
  | op :: rest => runSql (applySqlOp s op) rest

def nodupIds : List Meal → Bool
  | [] => true
  | meal :: rest => (rest.all fun r => r.id != meal.id) && nodupIds rest

/-- Well-formedness of one operation against the current relational state:
fresh meal id, duplicate-free saveMeals payload, strictly increasing goal
write time. -/
def wfOp (s : SqlState) : StoreOp → Bool
  | .addMeal meal => s.meals.all fun r => r.id != meal.id
  | .removeMeal _ => true
  | .saveMeals meals => nodupIds meals
  | .saveDailyGoals _ now => s.dailyGoals.all fun r => decide (r.2 < now)
  | .clearAllData => true

def wfOps (s : SqlState) : List StoreOp → Bool
  | [] => true
  | op :: rest => wfOp s op && wfOps (applySqlOp s op) rest

theorem nodupIds_iff (l : List Meal) :
    nodupIds l = true ↔ (l.map fun meal => meal.id).Nodup := by
  induction l with
  | nil => simp [nodupIds]
  | cons meal rest ih =>
      simp only [nodupIds, List.map_cons, List.nodup_cons, Bool.and_eq_true, ih,
        List.all_eq_true, List.mem_map, bne_iff_ne]
      constructor
      · rintro ⟨h1, h2⟩
        refine ⟨?_, h2⟩
        rintro ⟨r, hr, he⟩
        exact h1 r hr he
      · rintro ⟨h1, h2⟩
        refine ⟨?_, h2⟩
        intro r hr he
        exact h1 ⟨r, hr, he⟩

theorem insertMealRows_complete (meals acc : List Meal)
    (hnodup : nodupIds meals = true)
    (hdisj : ∀ meal ∈ meals, ∀ r ∈ acc, r.id ≠ meal.id) :
    SQLiteDatabaseService.insertMealRows acc meals = (acc ++ meals, none) := by
  induction meals generalizing acc with
  | nil => simp [SQLiteDatabaseService.insertMealRows]
  | cons meal rest ih =>
      unfold SQLiteDatabaseService.insertMealRows
      have hany : (acc.any fun r => r.id == meal.id) = false := by
        rw [List.any_eq_false]
        intro r hr
        simpa using hdisj meal (List.mem_cons_self meal rest) r hr
      rw [hany]
      simp only [Bool.false_eq_true, if_false]
      rw [ih (acc ++ [meal])]
      · simp
      · simp only [nodupIds, Bool.and_eq_true] at hnodup
        exact hnodup.2
      · intro w hw r hr
        rcases List.mem_append.mp hr with hr | hr
        · exact hdisj w (List.mem_cons_of_mem meal hw) r hr
        · simp only [nodupIds, Bool.and_eq_true, List.all_eq_true] at hnodup
          have hne : w.id ≠ meal.id := by simpa using hnodup.1 w hw
          rw [List.mem_singleton.mp hr]
          exact hne.symm

theorem insertMealRows_nodup (meals acc : List Meal)
    (hacc : (acc.map fun meal => meal.id).Nodup) :
    ((SQLiteDatabaseService.insertMealRows acc meals).1.map fun meal => meal.id).Nodup := by
  induction meals generalizing acc with
  | nil => exact hacc
  | cons meal rest ih =>
      unfold SQLiteDatabaseService.insertMealRows
      rcases hany : acc.any fun r => r.id == meal.id with _ | _
      · simp only [Bool.false_eq_true, if_false]
        refine ih (acc ++ [meal]) ?_
        rw [List.map_append, List.nodup_append]
        refine ⟨hacc, List.nodup_singleton _, ?_⟩
        intro a ha hb
        rcases List.mem_map.mp ha with ⟨r, hr, he⟩
        rw [List.any_eq_false] at hany
        have hne : r.id ≠ meal.id := by simpa using hany r hr
        exact hne (he.trans (by simpa using hb))
      · simp only [if_true]
        exact hacc

/-- Relational invariant: meal ids stay unique under every operation, with no
hypothesis on the operation performed. -/
theorem sql_nodup_applyOp (s : SqlState) (op : StoreOp)
    (h : (s.meals.map fun meal => meal.id).Nodup) :
    ((applySqlOp s op).meals.map fun meal => meal.id).Nodup := by
  cases op with
  | addMeal meal =>
      simp only [applySqlOp, SQLiteDatabaseService.addMeal]
      rcases hany : s.meals.any fun r => r.id == meal.id with _ | _
      · simp only [Bool.false_eq_true, if_false]
        rw [List.map_append, List.nodup_append]
        refine ⟨h, List.nodup_singleton _, ?_⟩
        intro a ha hb
        rcases List.mem_map.mp ha with ⟨r, hr, he⟩
        rw [List.any_eq_false] at hany
        have hne : r.id ≠ meal.id := by simpa using hany r hr
        exact hne (he.trans (by simpa using hb))
      · simpa only [if_true]
  | removeMeal i =>
      simp only [applySqlOp, SQLiteDatabaseService.removeMeal]
      exact List.Nodup.sublist ((List.filter_sublist s.meals).map fun meal => meal.id) h
  | saveMeals meals =>
      simp only [applySqlOp, SQLiteDatabaseService.saveMeals]
      exact insertMealRows_nodup meals [] (by simp)
  | saveDailyGoals goals now =>
      simpa only [applySqlOp, SQLiteDatabaseService.saveDailyGoals]
  | clearAllData =>
      simp [applySqlOp, SQLiteDatabaseService.clearAllData]

/-- Latest-write-wins: appending a goals row with a strictly larger
updated_at makes it the row returned by loadDailyGoals. -/
theorem loadDailyGoals_saveDailyGoals (s : SqlState) (goals : DailyGoals) (now : Int)
    (h : ∀ r ∈ s.dailyGoals, r.2 < now) :
    SQLiteDatabaseService.loadDailyGoals (SQLiteDatabaseService.saveDailyGoals s goals now) =
      some goals := by
  unfold SQLiteDatabaseService.loadDailyGoals SQLiteDatabaseService.saveDailyGoals
  dsimp only
  have hperm := sortByKeyDesc_perm (fun r => r.2) (s.dailyGoals ++ [(goals, now)])
  have hpair := sortByKeyDesc_pairwise (fun r => r.2) (s.dailyGoals ++ [(goals, now)])
  rcases hs : sortByKeyDesc (fun r => r.2) (s.dailyGoals ++ [(goals, now)]) with _ | ⟨hd, tl⟩
  · exfalso
    have := hperm.length_eq
    rw [hs] at this
    simp at this
  · rw [hs] at hperm hpair
    have hgmem : (goals, now) ∈ hd :: tl := hperm.mem_iff.mpr (by simp)
    have hhd : hd = (goals, now) := by
      rcases List.mem_cons.mp hgmem with he | he
      · exact he.symm
      · have hle : now ≤ hd.2 := List.rel_of_pairwise_cons hpair he
        have hhdmem : hd ∈ s.dailyGoals ++ [(goals, now)] :=
          hperm.mem_iff.mp (List.mem_cons_self hd tl)
        rcases List.mem_append.mp hhdmem with hmem | hmem
        · exact absurd hle (by have := h hd hmem; omega)
        · exact List.mem_singleton.mp hmem
    rw [hs, hhd]
    rfl

/-- Correspondence between the two store implementations: same meal rows in
the same order, and the cached goals equal the latest relational row. -/
def StoresAgree (sm : DBState) (ss : SqlState) : Prop :=
  sm.mealsCache = ss.meals ∧
    InMemoryDatabase.loadDailyGoals sm = SQLiteDatabaseService.loadDailyGoals ss

theorem storesAgree_applyOp (sm : DBState) (ss : SqlState) (op : StoreOp)
    (hAg : StoresAgree sm ss) (hwf : wfOp ss op = true) :
    StoresAgree (applyMemOp sm op) (applySqlOp ss op) := by
  obtain ⟨hm, hg⟩ := hAg
  cases op with
  | addMeal meal =>
      have hany : (ss.meals.any fun r => r.id == meal.id) = false := by
        simp only [wfOp, List.all_eq_true] at hwf
        rw [List.any_eq_false]
        intro r hr
        simpa using hwf r hr
      constructor
      · simp [applyMemOp, applySqlOp, InMemoryDatabase.addMeal, InMemoryDatabase.saveMeals,
          SQLiteDatabaseService.addMeal, hany, hm]
      · simp only [applyMemOp, applySqlOp, InMemoryDatabase.addMeal,
          InMemoryDatabase.saveMeals, SQLiteDatabaseService.addMeal, hany,
          Bool.false_eq_true, if_false]
        simpa [InMemoryDatabase.loadDailyGoals, SQLiteDatabaseService.loadDailyGoals] using hg
  | removeMeal i =>
      constructor
      · simp [applyMemOp, applySqlOp, InMemoryDatabase.removeMeal, InMemoryDatabase.saveMeals,
          SQLiteDatabaseService.removeMeal, hm]
      · simpa [applyMemOp, applySqlOp, InMemoryDatabase.removeMeal,
          InMemoryDatabase.saveMeals, SQLiteDatabaseService.removeMeal,
          InMemoryDatabase.loadDailyGoals, SQLiteDatabaseService.loadDailyGoals] using hg
  | saveMeals meals =>
      have hrows := insertMealRows_complete meals [] (by simpa [wfOp] using hwf)
        (by intro w hw r hr; exact absurd hr (List.not_mem_nil r))
      constructor
      · simp [applyMemOp, applySqlOp, InMemoryDatabase.saveMeals,
          SQLiteDatabaseService.saveMeals, hrows]
      · simpa [applyMemOp, applySqlOp, InMemoryDatabase.saveMeals,
          SQLiteDatabaseService.saveMeals, InMemoryDatabase.loadDailyGoals,
          SQLiteDatabaseService.loadDailyGoals] using hg
  | saveDailyGoals goals now =>
      constructor
      · simpa [applyMemOp, applySqlOp, InMemoryDatabase.saveDailyGoals,
          SQLiteDatabaseService.saveDailyGoals] using hm
      · have hlt : ∀ r ∈ ss.dailyGoals, r.2 < now := by
          simp only [wfOp, List.all_eq_true] at hwf
          intro r hr
          simpa using hwf r hr
        have := loadDailyGoals_saveDailyGoals ss goals now hlt
        simpa [applyMemOp, applySqlOp, InMemoryDatabase.saveDailyGoals,
          InMemoryDatabase.loadDailyGoals] using this.symm
  | clearAllData =>
      constructor
      · simp [applyMemOp, applySqlOp, InMemoryDatabase.clearAllData,
          SQLiteDatabaseService.clearAllData]
      · simp [applyMemOp, applySqlOp, InMemoryDatabase.clearAllData,
          SQLiteDatabaseService.clearAllData, InMemoryDatabase.loadDailyGoals,
          SQLiteDatabaseService.loadDailyGoals, sortByKeyDesc]

theorem storesAgree_run (ops : List StoreOp) (sm : DBState) (ss : SqlState)
    (hAg : StoresAgree sm ss) (hwf : wfOps ss ops = true) :
    StoresAgree (runMem sm ops) (runSql ss ops) := by
  induction ops generalizing sm ss with
  | nil => exact hAg
  | cons op rest ih =>
      simp only [wfOps, Bool.and_eq_true] at hwf
      exact ih (applyMemOp sm op) (applySqlOp ss op)
        (storesAgree_applyOp sm ss op hAg hwf.1) hwf.2

theorem sql_nodup_run (ops : List StoreOp) (s : SqlState)
    (h : (s.meals.map fun meal => meal.id).Nodup) :
    ((runSql s ops).meals.map fun meal => meal.id).Nodup := by
  induction ops generalizing s with
  | nil => exact h
  | cons op rest ih => exact ih (applySqlOp s op) (sql_nodup_applyOp s op h)

theorem dailyAverages_lookup_perm (tz : Int) (l1 l2 : List Meal) (p : l1.Perm l2)
    (q : String) :
    lookupKey (dailyAveragesOf tz l1) q = lookupKey (dailyAveragesOf tz l2) q := by
  rw [lookupKey_dailyAveragesOf, lookupKey_dailyAveragesOf]
  have hcount : daySpecCount tz l1 q = daySpecCount tz l2 q := by
    unfold daySpecCount
    exact (p.filter _).length_eq
  have hcal : daySpecCal tz l1 q = daySpecCal tz l2 q := by
    unfold daySpecCal
    exact ((p.filter _).map _).sum_eq
  rw [hcount, hcal]

theorem month_filter_eq (tz month year : Int) (hm0 : 0 ≤ month) (hm1 : month ≤ 11)
    (l : List Meal) :
    (l.filter fun meal =>
        decide ((getLocalMonthRange tz month year).1 ≤ meal.timestamp ∧
          meal.timestamp ≤ (getLocalMonthRange tz month year).2)) =
      l.filter fun meal => decide (inLocalMonth tz year month meal.timestamp) := by
  apply List.filter_congr
  intro meal _
  exact decide_eq_decide.mpr (mem_month_range_iff tz year month meal.timestamp hm0 hm1)

theorem summary_parts (tz month year : Int) (hm0 : 0 ≤ month) (hm1 : month ≤ 11)
    (meals : List Meal) :
    sumMeals (dailyAveragesOf tz meals) = meals.length ∧
    (if 0 < meals.length
      then (((meals.map fun meal => meal.calories).sum : Int) : ℚ) /
        ((jsDaysInMonth year month : Int) : ℚ)
      else (0 : ℚ)) =
      (((meals.map fun meal => meal.calories).sum : Int) : ℚ) /
        ((daysInMonth year month : Int) : ℚ) := by
  refine ⟨sumMeals_dailyAveragesOf tz meals, ?_⟩
  by_cases h : 0 < meals.length
  · rw [if_pos h, jsDaysInMonth_eq year month hm0 hm1]
  · rw [if_neg h]
    have hnil : meals = [] := List.length_eq_zero.mp (by omega)
    subst hnil
    simp

theorem dailyAverages_month_entries (tz month year : Int) (hm0 : 0 ≤ month)
    (hm1 : month ≤ 11) (meals : List Meal)
    (hmeals : ∀ meal ∈ meals, inLocalMonth tz year month meal.timestamp) :
    (∀ e ∈ dailyAveragesOf tz meals,
      1 ≤ e.2.meals ∧ isDateShape e.1 = true ∧
        ∃ d, 1 ≤ d ∧ d ≤ daysInMonth year month ∧ e.1 = formatCivilDate (year, month, d)) ∧
    ∀ d, 1 ≤ d → d ≤ daysInMonth year month →
      (∀ meal ∈ meals, localCivil tz meal.timestamp ≠ (year, month, d)) →
      lookupKey (dailyAveragesOf tz meals) (formatCivilDate (year, month, d)) = none := by
  constructor
  · intro e he
    obtain ⟨⟨meal, hmem, hkey⟩, hpos⟩ := mem_dailyAveragesOf tz meals e he
    obtain ⟨hciv, hd1, hd2⟩ :=
      inLocalMonth_civil tz year month meal.timestamp hm0 hm1 (hmeals meal hmem)
    have hkeyfmt : e.1 =
        formatCivilDate (year, month, localDays tz meal.timestamp - daysFromCivil year month 1 + 1) := by
      rw [hkey]
      unfold dateKey
      rw [hciv]
    exact ⟨hpos, by rw [hkeyfmt]; exact isDateShape_formatCivilDate year month _,
      ⟨localDays tz meal.timestamp - daysFromCivil year month 1 + 1, hd1, hd2, hkeyfmt⟩⟩
  · intro d hd1 hd2 hnone
    have hcount : daySpecCount tz meals (formatCivilDate (year, month, d)) = 0 := by
      unfold daySpecCount
      rw [List.length_eq_zero, List.filter_eq_nil_iff]
      intro meal hmem
      obtain ⟨hciv, he1, he2⟩ :=
        inLocalMonth_civil tz year month meal.timestamp hm0 hm1 (hmeals meal hmem)
      rw [Bool.not_eq_true, beq_eq_false_iff_ne]
      intro hkeq
      have hfmt : formatCivilDate
          (year, month, localDays tz meal.timestamp - daysFromCivil year month 1 + 1) =
          formatCivilDate (year, month, d) := by
        rw [← hkeq]
        unfold dateKey
        rw [hciv]
      have hb := daysInMonth_bounds year month
      have hdd : localDays tz meal.timestamp - daysFromCivil year month 1 + 1 = d :=
        formatCivilDate_day_inj year month _ d he1 (by omega) hd1 (by omega) hfmt
      exact hnone meal hmem (by rw [hciv, hdd])
    rw [lookupKey_dailyAveragesOf, hcount]
    rfl

theorem memSummary_totalCalories (tz month year : Int) (s : DBState) :
    (InMemoryDatabase.getMonthlySummary tz s month year).totalCalories =
      ((InMemoryDatabase.getMealsByMonth tz s month year).map fun meal => meal.calories).sum :=
  rfl

theorem memSummary_totalMeals (tz month year : Int) (s : DBState) :
    (InMemoryDatabase.getMonthlySummary tz s month year).totalMeals =
      (InMemoryDatabase.getMealsByMonth tz s month year).length :=
  rfl

theorem memSummary_dailyAverages (tz month year : Int) (s : DBState) :
    (InMemoryDatabase.getMonthlySummary tz s month year).dailyAverages =
      dailyAveragesOf tz (InMemoryDatabase.getMealsByMonth tz s month year) :=
  rfl

theorem memSummary_averageCalories (tz month year : Int) (s : DBState) :
    (InMemoryDatabase.getMonthlySummary tz s month year).averageCalories =
      (if 0 < (InMemoryDatabase.getMealsByMonth tz s month year).length
        then ((((InMemoryDatabase.getMealsByMonth tz s month year).map
            fun meal => meal.calories).sum : Int) : ℚ) / ((jsDaysInMonth year month : Int) : ℚ)
        else (0 : ℚ)) :=
  rfl

theorem sqlSummary_totalCalories (tz month year : Int) (s : SqlState) :
    (SQLiteDatabaseService.getMonthlySummary tz s month year).totalCalories =
      ((SQLiteDatabaseService.getMealsByMonth tz s month year).map fun meal => meal.calories).sum :=
  rfl

theorem sqlSummary_totalMeals (tz month year : Int) (s : SqlState) :
    (SQLiteDatabaseService.getMonthlySummary tz s month year).totalMeals =
      (SQLiteDatabaseService.getMealsByMonth tz s month year).length :=
  rfl

theorem sqlSummary_dailyAverages (tz month year : Int) (s : SqlState) :
    (SQLiteDatabaseService.getMonthlySummary tz s month year).dailyAverages =
      dailyAveragesOf tz (SQLiteDatabaseService.getMealsByMonth tz s month year) :=
  rfl

theorem sqlSummary_averageCalories (tz month year : Int) (s : SqlState) :
    (SQLiteDatabaseService.getMonthlySummary tz s month year).averageCalories =
      (if 0 < (SQLiteDatabaseService.getMealsByMonth tz s month year).length
        then ((((SQLiteDatabaseService.getMealsByMonth tz s month year).map
            fun meal => meal.calories).sum : Int) : ℚ) / ((jsDaysInMonth year month : Int) : ℚ)
        else (0 : ℚ)) :=
  rfl

theorem memMonth_eq_filter (tz month year : Int) (s : DBState)
    (hm0 : 0 ≤ month) (hm1 : month ≤ 11) :
    InMemoryDatabase.getMealsByMonth tz s month year =
      s.mealsCache.filter fun meal => decide (inLocalMonth tz year month meal.timestamp) := by
  unfold InMemoryDatabase.getMealsByMonth
  exact month_filter_eq tz month year hm0 hm1 s.mealsCache

theorem sqlMonth_perm_filter (tz month year : Int) (s : SqlState)
    (hm0 : 0 ≤ month) (hm1 : month ≤ 11) :
    (SQLiteDatabaseService.getMealsByMonth tz s month year).Perm
      (s.meals.filter fun meal => decide (inLocalMonth tz year month meal.timestamp)) := by
  unfold SQLiteDatabaseService.getMealsByMonth
  rw [← month_filter_eq tz month year hm0 hm1 s.meals]
  exact sortByKeyDesc_perm _ _

/-- C1: for every store state and valid `(month, year)`, the monthly summary
of both implementations has `totalCalories` equal to the sum of calories over
the stored meals whose timestamp falls in that calendar month in local time,
`totalMeals` equal to the count of those meals and to the sum of the meal
counters of `dailyAverages`, and `averageCalories` equal to `totalCalories`
divided by the number of calendar days in the month. -/
theorem C1_getMonthlySummary_correct (tz month year : Int) (sm : DBState) (ss : SqlState)
    (hm0 : 0 ≤ month) (hm1 : month ≤ 11) :
    ((InMemoryDatabase.getMonthlySummary tz sm month year).totalCalories =
        ((sm.mealsCache.filter fun meal =>
          decide (inLocalMonth tz year month meal.timestamp)).map
            fun meal => meal.calories).sum ∧
      (InMemoryDatabase.getMonthlySummary tz sm month year).totalMeals =
        (sm.mealsCache.filter fun meal =>
          decide (inLocalMonth tz year month meal.timestamp)).length ∧
      (InMemoryDatabase.getMonthlySummary tz sm month year).totalMeals =
        sumMeals (InMemoryDatabase.getMonthlySummary tz sm month year).dailyAverages ∧
      (InMemoryDatabase.getMonthlySummary tz sm month year).averageCalories =
        (((InMemoryDatabase.getMonthlySummary tz sm month year).totalCalories : Int) : ℚ) /
          ((daysInMonth year month : Int) : ℚ)) ∧
    ((SQLiteDatabaseService.getMonthlySummary tz ss month year).totalCalories =
        ((ss.meals.filter fun meal =>
          decide (inLocalMonth tz year month meal.timestamp)).map
            fun meal => meal.calories).sum ∧
      (SQLiteDatabaseService.getMonthlySummary tz ss month year).totalMeals =
        (ss.meals.filter fun meal =>
          decide (inLocalMonth tz year month meal.timestamp)).length ∧
      (SQLiteDatabaseService.getMonthlySummary tz ss month year).totalMeals =
        sumMeals (SQLiteDatabaseService.getMonthlySummary tz ss month year).dailyAverages ∧
      (SQLiteDatabaseService.getMonthlySummary tz ss month year).averageCalories =
        (((SQLiteDatabaseService.getMonthlySummary tz ss month year).totalCalories : Int) : ℚ) /
          ((daysInMonth year month : Int) : ℚ)) := by
  have hfm := memMonth_eq_filter tz month year sm hm0 hm1
  have hps := sqlMonth_perm_filter tz month year ss hm0 hm1
  obtain ⟨hsm1, hsm2⟩ :=
    summary_parts tz month year hm0 hm1 (InMemoryDatabase.getMealsByMonth tz sm month year)
  obtain ⟨hss1, hss2⟩ :=
    summary_parts tz month year hm0 hm1 (SQLiteDatabaseService.getMealsByMonth tz ss month year)
  constructor
  · refine ⟨?_, ?_, ?_, ?_⟩
    · rw [memSummary_totalCalories, hfm]
    · rw [memSummary_totalMeals, hfm]
    · rw [memSummary_totalMeals, memSummary_dailyAverages]
      exact hsm1.symm
    · rw [memSummary_averageCalories, memSummary_totalCalories]
      exact hsm2
  · refine ⟨?_, ?_, ?_, ?_⟩
    · rw [sqlSummary_totalCalories]
      exact (hps.map fun meal => meal.calories).sum_eq
    · rw [sqlSummary_totalMeals]
      exact hps.length_eq
    · rw [sqlSummary_totalMeals, sqlSummary_dailyAverages]
      exact hss1.symm
    · rw [sqlSummary_averageCalories, sqlSummary_totalCalories]
      exact hss2

theorem C1_witness :
    (0 : Int) ≤ 0 ∧ (0 : Int) ≤ 11 ∧
      (InMemoryDatabase.getMonthlySummary 0
        { mealsCache := [⟨"a", 200000000, "", [], 500, 90⟩], goalsCache := none,
          profileCache := none } 0 1970).totalMeals =
        sumMeals (InMemoryDatabase.getMonthlySummary 0
          { mealsCache := [⟨"a", 200000000, "", [], 500, 90⟩], goalsCache := none,
            profileCache := none } 0 1970).dailyAverages :=
  ⟨by decide, by decide,
    (C1_getMonthlySummary_correct 0 0 1970
      { mealsCache := [⟨"a", 200000000, "", [], 500, 90⟩], goalsCache := none,
        profileCache := none } {} (by decide) (by decide)).1.2.2.1⟩

/-- C2 as stated is false for the in-memory implementation: its
getMealsByDate preserves storage order instead of ordering by timestamp
descending. -/
theorem C2_counterexample :
    ¬ List.Pairwise (fun a b => b.timestamp ≤ a.timestamp)
      (InMemoryDatabase.getMealsByDate 0
        { mealsCache := [⟨"a", 100, "", [], 1, 0⟩, ⟨"b", 200, "", [], 2, 0⟩],
          goalsCache := none, profileCache := none } 150) := by
  decide

/-- C2 amended: getMealsByDate returns exactly the stored meals whose
timestamp lies in the half-open local day `[midnight, midnight + 1 day)`; a
meal at local midnight minus one millisecond falls in the previous day's
bucket and a meal at local midnight in the current day's bucket; the
relational implementation orders by timestamp descending, while the
in-memory implementation keeps storage order. -/
theorem C2_amended (tz date : Int) (sm : DBState) (ss : SqlState) :
    (∀ meal : Meal, meal ∈ InMemoryDatabase.getMealsByDate tz sm date ↔
      meal ∈ sm.mealsCache ∧
        dayMs * localDays tz date - tz ≤ meal.timestamp ∧
        meal.timestamp < dayMs * localDays tz date - tz + dayMs) ∧
    (∀ meal : Meal, meal.timestamp = dayMs * localDays tz date - tz - 1 →
      (meal ∈ InMemoryDatabase.getMealsByDate tz sm (date - dayMs) ↔
        meal ∈ sm.mealsCache) ∧
      meal ∉ InMemoryDatabase.getMealsByDate tz sm date) ∧
    (∀ meal : Meal, meal.timestamp = dayMs * localDays tz date - tz →
      (meal ∈ InMemoryDatabase.getMealsByDate tz sm date ↔ meal ∈ sm.mealsCache)) ∧
    List.Pairwise (fun a b => b.timestamp ≤ a.timestamp)
      (SQLiteDatabaseService.getMealsByDate tz ss date) := by
  refine ⟨?_, ?_, ?_, ?_⟩
  · intro meal
    simp only [InMemoryDatabase.getMealsByDate, List.mem_filter, decide_eq_true_eq,
      getLocalDayRange]
    exact and_congr_right fun _ => by omega
  · intro meal hts
    constructor
    · simp only [InMemoryDatabase.getMealsByDate, List.mem_filter, decide_eq_true_eq,
        getLocalDayRange]
      refine and_iff_left_of_imp fun _ => ?_
      unfold localDays dayMs at *
      omega
    · simp only [InMemoryDatabase.getMealsByDate, List.mem_filter, decide_eq_true_eq,
        getLocalDayRange]
      rintro ⟨-, h1, -⟩
      unfold localDays dayMs at *
      omega
  · intro meal hts
    simp only [InMemoryDatabase.getMealsByDate, List.mem_filter, decide_eq_true_eq,
      getLocalDayRange]
    refine and_iff_left_of_imp fun _ => ?_
    unfold localDays dayMs at *
    omega
  · exact sortByKeyDesc_pairwise _ _

/-- C10: getDailyMeals coincides with getMealsByDate in both
implementations. -/
theorem C10_getDailyMeals_eq (tz date : Int) (sm : DBState) (ss : SqlState) :
    InMemoryDatabase.getDailyMeals tz sm date = InMemoryDatabase.getMealsByDate tz sm date ∧
    SQLiteDatabaseService.getDailyMeals tz ss date =
      SQLiteDatabaseService.getMealsByDate tz ss date :=
  ⟨rfl, rfl⟩

theorem C10_witness :
    InMemoryDatabase.getDailyMeals 0 {} 0 = InMemoryDatabase.getMealsByDate 0 {} 0 :=
  (C10_getDailyMeals_eq 0 0 {} {}).1

theorem C2_witness :
    List.Pairwise (fun a b => b.timestamp ≤ a.timestamp)
      (SQLiteDatabaseService.getMealsByDate 0 {} 150) :=
  (C2_amended 0 150 {} {}).2.2.2

/-- C6: after addMeal, getMealsByDate for any date in the same local day as
the meal's timestamp includes the meal, and after removeMeal of its id the
same query excludes it; in both implementations (the relational one under a
fresh id, since its addMeal rejects duplicates). -/
theorem C6_add_remove_roundtrip (tz : Int) (sm : DBState) (ss : SqlState) (meal : Meal)
    (query : Int)
    (hday : localDays tz query = localDays tz meal.timestamp)
    (hfresh : ∀ r ∈ ss.meals, r.id ≠ meal.id) :
    (meal ∈ InMemoryDatabase.getMealsByDate tz (InMemoryDatabase.addMeal sm meal) query ∧
      meal ∉ InMemoryDatabase.getMealsByDate tz
        (InMemoryDatabase.removeMeal (InMemoryDatabase.addMeal sm meal) meal.id) query) ∧
    (meal ∈ SQLiteDatabaseService.getMealsByDate tz
        (SQLiteDatabaseService.addMeal ss meal).1 query ∧
      meal ∉ SQLiteDatabaseService.getMealsByDate tz
        (SQLiteDatabaseService.removeMeal (SQLiteDatabaseService.addMeal ss meal).1 meal.id)
        query) := by
  have hin : (getLocalDayRange tz query).1 ≤ meal.timestamp ∧
      meal.timestamp ≤ (getLocalDayRange tz query).2 := by
    simp only [getLocalDayRange, localDays, dayMs] at hday ⊢
    omega
  have hany : (ss.meals.any fun r => r.id == meal.id) = false := by
    rw [List.any_eq_false]
    intro r hr
    simpa using hfresh r hr
  have hadd : (SQLiteDatabaseService.addMeal ss meal).1 =
      { ss with meals := ss.meals ++ [meal] } := by
    unfold SQLiteDatabaseService.addMeal
    simp only [hany, Bool.false_eq_true, if_false]
  constructor
  · constructor
    · exact List.mem_filter.mpr
        ⟨List.mem_append.mpr (Or.inr (List.mem_singleton.mpr rfl)), decide_eq_true hin⟩
    · intro hmem
      have h1 := (List.mem_filter.mp hmem).1
      have h2 := (List.mem_filter.mp h1).2
      simp at h2
  · constructor
    · rw [SQLiteDatabaseService.getMealsByDate, (sortByKeyDesc_perm _ _).mem_iff, hadd]
      exact List.mem_filter.mpr
        ⟨List.mem_append.mpr (Or.inr (List.mem_singleton.mpr rfl)), decide_eq_true hin⟩
    · rw [SQLiteDatabaseService.getMealsByDate, (sortByKeyDesc_perm _ _).mem_iff]
      intro hmem
      have h1 := (List.mem_filter.mp hmem).1
      have h2 := (List.mem_filter.mp h1).2
      simp at h2

theorem C6_witness :
    localDays 0 200 = localDays 0 100 ∧
      { id := "x", timestamp := 100, imageUri := "", foodItems := [], calories := 5,
        confidence := 1 : Meal } ∈ InMemoryDatabase.getMealsByDate 0
        (InMemoryDatabase.addMeal {}
          { id := "x", timestamp := 100, imageUri := "", foodItems := [], calories := 5,
            confidence := 1 }) 200 :=
  ⟨by decide,
    (C6_add_remove_roundtrip 0 {} {}
      { id := "x", timestamp := 100, imageUri := "", foodItems := [], calories := 5,
        confidence := 1 } 200 (by decide)
      (fun r hr => absurd hr (List.not_mem_nil r))).1.1⟩

/-- C7: removeMeal with an id absent from the store leaves the state
unchanged, in both implementations. -/
theorem C7_remove_absent_noop (sm : DBState) (ss : SqlState) (i : String)
    (hm : ∀ meal ∈ sm.mealsCache, meal.id ≠ i)
    (hs : ∀ meal ∈ ss.meals, meal.id ≠ i) :
    InMemoryDatabase.removeMeal sm i = sm ∧ SQLiteDatabaseService.removeMeal ss i = ss := by
  have hfm : (sm.mealsCache.filter fun meal => meal.id != i) = sm.mealsCache :=
    List.filter_eq_self.mpr fun meal hmem => by simpa using hm meal hmem
  have hfs : (ss.meals.filter fun meal => meal.id != i) = ss.meals :=
    List.filter_eq_self.mpr fun meal hmem => by simpa using hs meal hmem
  constructor
  · unfold InMemoryDatabase.removeMeal InMemoryDatabase.saveMeals
    rw [hfm]
  · unfold SQLiteDatabaseService.removeMeal
    rw [hfs]

theorem C7_witness :
    InMemoryDatabase.removeMeal {} "z" = ({} : DBState) ∧
      SQLiteDatabaseService.removeMeal {} "z" = ({} : SqlState) :=
  C7_remove_absent_noop {} {} "z" (fun meal h => absurd h (List.not_mem_nil meal))
    (fun meal h => absurd h (List.not_mem_nil meal))

/-- C8: in both implementations, every dailyAverages entry of the monthly
summary counts at least one meal and its key is the zero-padded YYYY-MM-DD
rendering of a calendar day of the requested month; a day of the month on
which no stored meal falls (in local time) has no entry at all. -/
theorem C8_dailyAverages_entries (tz month year : Int) (sm : DBState) (ss : SqlState)
    (hm0 : 0 ≤ month) (hm1 : month ≤ 11) :
    (∀ e ∈ (InMemoryDatabase.getMonthlySummary tz sm month year).dailyAverages,
      1 ≤ e.2.meals ∧ isDateShape e.1 = true ∧
        ∃ d, 1 ≤ d ∧ d ≤ daysInMonth year month ∧ e.1 = formatCivilDate (year, month, d)) ∧
    (∀ d, 1 ≤ d → d ≤ daysInMonth year month →
      (∀ meal ∈ sm.mealsCache, localCivil tz meal.timestamp ≠ (year, month, d)) →
      lookupKey (InMemoryDatabase.getMonthlySummary tz sm month year).dailyAverages
        (formatCivilDate (year, month, d)) = none) ∧
    (∀ e ∈ (SQLiteDatabaseService.getMonthlySummary tz ss month year).dailyAverages,
      1 ≤ e.2.meals ∧ isDateShape e.1 = true ∧
        ∃ d, 1 ≤ d ∧ d ≤ daysInMonth year month ∧ e.1 = formatCivilDate (year, month, d)) ∧
    (∀ d, 1 ≤ d → d ≤ daysInMonth year month →
      (∀ meal ∈ ss.meals, localCivil tz meal.timestamp ≠ (year, month, d)) →
      lookupKey (SQLiteDatabaseService.getMonthlySummary tz ss month year).dailyAverages
        (formatCivilDate (year, month, d)) = none) := by
  have hmeq := memMonth_eq_filter tz month year sm hm0 hm1
  have hmm : ∀ meal ∈ InMemoryDatabase.getMealsByMonth tz sm month year,
      inLocalMonth tz year month meal.timestamp := by
    rw [hmeq]
    intro meal hmem
    exact of_decide_eq_true (List.mem_filter.mp hmem).2
  have hps := sqlMonth_perm_filter tz month year ss hm0 hm1
  have hsm : ∀ meal ∈ SQLiteDatabaseService.getMealsByMonth tz ss month year,
      inLocalMonth tz year month meal.timestamp := by
    intro meal hmem
    exact of_decide_eq_true (List.mem_filter.mp (hps.mem_iff.mp hmem)).2
  obtain ⟨hA, hB⟩ := dailyAverages_month_entries tz month year hm0 hm1
    (InMemoryDatabase.getMealsByMonth tz sm month year) hmm
  obtain ⟨hC, hD⟩ := dailyAverages_month_entries tz month year hm0 hm1
    (SQLiteDatabaseService.getMealsByMonth tz ss month year) hsm
  refine ⟨?_, ?_, ?_, ?_⟩
  · rw [memSummary_dailyAverages]
    exact hA
  · intro d hd1 hd2 hnone
    rw [memSummary_dailyAverages]
    apply hB d hd1 hd2
    intro meal hmem
    apply hnone
    rw [hmeq] at hmem
    exact (List.mem_filter.mp hmem).1
  · rw [sqlSummary_dailyAverages]
    exact hC
  · intro d hd1 hd2 hnone
    rw [sqlSummary_dailyAverages]
    apply hD d hd1 hd2
    intro meal hmem
    apply hnone
    exact (List.mem_filter.mp (hps.mem_iff.mp hmem)).1

theorem C8_witness :
    (0 : Int) ≤ 0 ∧ (0 : Int) ≤ 11 ∧
      lookupKey (InMemoryDatabase.getMonthlySummary 0 {} 0 1970).dailyAverages
        (formatCivilDate (1970, 0, 5)) = none :=
  ⟨by decide, by decide,
    (C8_dailyAverages_entries 0 0 1970 {} {} (by decide) (by decide)).2.1 5 (by decide)
      (by decide) (fun meal h => absurd h (List.not_mem_nil meal))⟩

/-- C3 as stated is false: the two implementations return day queries in
different orders (the relational one sorts by timestamp descending, the
in-memory one keeps storage order). -/
theorem C3_counterexample :
    InMemoryDatabase.getMealsByDate 0
        (runMem {} [StoreOp.addMeal { id := "a", timestamp := 100, imageUri := "", foodItems := [], calories := 1, confidence := 0 },
          StoreOp.addMeal { id := "b", timestamp := 200, imageUri := "", foodItems := [], calories := 2, confidence := 0 }]) 150 ≠
      SQLiteDatabaseService.getMealsByDate 0
        (runSql {} [StoreOp.addMeal { id := "a", timestamp := 100, imageUri := "", foodItems := [], calories := 1, confidence := 0 },
          StoreOp.addMeal { id := "b", timestamp := 200, imageUri := "", foodItems := [], calories := 2, confidence := 0 }]) 150 := by
  decide

/-- C3 amended: after any well-formed operation sequence from the empty
state (fresh ids on addMeal, duplicate-free saveMeals payloads, increasing
goal write times), the two implementations agree on every query up to
ordering: day, month and loadMeals queries are permutations of each other,
loadDailyGoals coincides, and the monthly summaries have equal
totalCalories, totalMeals, averageCalories, month and year and pointwise
equal dailyAverages maps. -/
theorem C3_equiv_amended (ops : List StoreOp) (tz date month year : Int)
    (hwf : wfOps {} ops = true) :
    (InMemoryDatabase.getMealsByDate tz (runMem {} ops) date).Perm
      (SQLiteDatabaseService.getMealsByDate tz (runSql {} ops) date) ∧
    (InMemoryDatabase.getMealsByMonth tz (runMem {} ops) month year).Perm
      (SQLiteDatabaseService.getMealsByMonth tz (runSql {} ops) month year) ∧
    (InMemoryDatabase.loadMeals (runMem {} ops)).Perm
      (SQLiteDatabaseService.loadMeals (runSql {} ops)) ∧
    InMemoryDatabase.loadDailyGoals (runMem {} ops) =
      SQLiteDatabaseService.loadDailyGoals (runSql {} ops) ∧
    (InMemoryDatabase.getMonthlySummary tz (runMem {} ops) month year).totalCalories =
      (SQLiteDatabaseService.getMonthlySummary tz (runSql {} ops) month year).totalCalories ∧
    (InMemoryDatabase.getMonthlySummary tz (runMem {} ops) month year).totalMeals =
      (SQLiteDatabaseService.getMonthlySummary tz (runSql {} ops) month year).totalMeals ∧
    (InMemoryDatabase.getMonthlySummary tz (runMem {} ops) month year).averageCalories =
      (SQLiteDatabaseService.getMonthlySummary tz (runSql {} ops) month year).averageCalories ∧
    (InMemoryDatabase.getMonthlySummary tz (runMem {} ops) month year).month =
      (SQLiteDatabaseService.getMonthlySummary tz (runSql {} ops) month year).month ∧
    (InMemoryDatabase.getMonthlySummary tz (runMem {} ops) month year).year =
      (SQLiteDatabaseService.getMonthlySummary tz (runSql {} ops) month year).year ∧
    ∀ q, lookupKey
        (InMemoryDatabase.getMonthlySummary tz (runMem {} ops) month year).dailyAverages q =
      lookupKey
        (SQLiteDatabaseService.getMonthlySummary tz (runSql {} ops) month year).dailyAverages
        q := by
  obtain ⟨hm, hg⟩ := storesAgree_run ops {} {} ⟨rfl, rfl⟩ hwf
  have hpd : (InMemoryDatabase.getMealsByDate tz (runMem {} ops) date).Perm
      (SQLiteDatabaseService.getMealsByDate tz (runSql {} ops) date) := by
    unfold InMemoryDatabase.getMealsByDate SQLiteDatabaseService.getMealsByDate
    rw [hm]
    exact (sortByKeyDesc_perm _ _).symm
  have hpm : (InMemoryDatabase.getMealsByMonth tz (runMem {} ops) month year).Perm
      (SQLiteDatabaseService.getMealsByMonth tz (runSql {} ops) month year) := by
    unfold InMemoryDatabase.getMealsByMonth SQLiteDatabaseService.getMealsByMonth
    rw [hm]
    exact (sortByKeyDesc_perm _ _).symm
  have hpl : (InMemoryDatabase.loadMeals (runMem {} ops)).Perm
      (SQLiteDatabaseService.loadMeals (runSql {} ops)) := by
    unfold InMemoryDatabase.loadMeals SQLiteDatabaseService.loadMeals
    rw [hm]
    exact (sortByKeyDesc_perm _ _).symm
  refine ⟨hpd, hpm, hpl, hg, ?_, ?_, ?_, rfl, rfl, ?_⟩
  · rw [memSummary_totalCalories, sqlSummary_totalCalories]
    exact ((hpm.map fun meal => meal.calories).sum_eq)
  · rw [memSummary_totalMeals, sqlSummary_totalMeals]
    exact hpm.length_eq
  · rw [memSummary_averageCalories, sqlSummary_averageCalories, hpm.length_eq,
      (hpm.map fun meal => meal.calories).sum_eq]
  · intro q
    rw [memSummary_dailyAverages, sqlSummary_dailyAverages]
    exact dailyAverages_lookup_perm tz _ _ hpm q

theorem C3_witness :
    wfOps {} [StoreOp.addMeal { id := "a", timestamp := 100, imageUri := "", foodItems := [], calories := 1, confidence := 0 }] = true ∧
      InMemoryDatabase.loadDailyGoals
          (runMem {} [StoreOp.addMeal { id := "a", timestamp := 100, imageUri := "", foodItems := [], calories := 1, confidence := 0 }]) =
        SQLiteDatabaseService.loadDailyGoals
          (runSql {} [StoreOp.addMeal { id := "a", timestamp := 100, imageUri := "", foodItems := [], calories := 1, confidence := 0 }]) :=
  ⟨by decide,
    (C3_equiv_amended [StoreOp.addMeal { id := "a", timestamp := 100, imageUri := "", foodItems := [], calories := 1, confidence := 0 }] 0 0 0 1970
      (by decide)).2.2.2.1⟩

/-- C4 as stated is false for the cache variant: its addMeal appends a
second record with the duplicate id instead of overwriting, so more than
one record per id can remain. -/
theorem C4_counterexample :
    ¬ ((InMemoryDatabase.addMeal
          { mealsCache := [{ id := "a", timestamp := 100, imageUri := "", foodItems := [], calories := 1, confidence := 0 }], goalsCache := none, profileCache := none }
          { id := "a", timestamp := 200, imageUri := "", foodItems := [], calories := 2, confidence := 0 }).mealsCache.filter fun meal => meal.id == "a").length ≤ 1 := by
  decide

/-- C4 amended: on a duplicate id the relational addMeal fails with an
error and leaves the table unchanged, while the cache variant
unconditionally appends the new record, keeping the old one. -/
theorem C4_duplicate_amended (sm : DBState) (ss : SqlState) (meal : Meal)
    (hdup : ∃ r ∈ ss.meals, r.id = meal.id) :
    (SQLiteDatabaseService.addMeal ss meal).1 = ss ∧
    (SQLiteDatabaseService.addMeal ss meal).2 = some "Failed to add meal" ∧
    (InMemoryDatabase.addMeal sm meal).mealsCache = sm.mealsCache ++ [meal] := by
  obtain ⟨r, hr, hid⟩ := hdup
  have hany : (ss.meals.any fun r => r.id == meal.id) = true :=
    List.any_eq_true.mpr ⟨r, hr, by simp [hid]⟩
  refine ⟨?_, ?_, rfl⟩
  · unfold SQLiteDatabaseService.addMeal
    rw [hany]
    simp
  · unfold SQLiteDatabaseService.addMeal
    rw [hany]
    simp

theorem C4_witness :
    (SQLiteDatabaseService.addMeal
      { meals := [{ id := "a", timestamp := 100, imageUri := "", foodItems := [], calories := 1, confidence := 0 }], dailyGoals := [], userProfiles := [] }
      { id := "a", timestamp := 200, imageUri := "", foodItems := [], calories := 2, confidence := 0 }).2 = some "Failed to add meal" :=
  (C4_duplicate_amended {}
    { meals := [{ id := "a", timestamp := 100, imageUri := "", foodItems := [], calories := 1, confidence := 0 }], dailyGoals := [], userProfiles := [] }
    { id := "a", timestamp := 200, imageUri := "", foodItems := [], calories := 2, confidence := 0 }
    ⟨{ id := "a", timestamp := 100, imageUri := "", foodItems := [], calories := 1, confidence := 0 }, List.mem_singleton.mpr rfl, rfl⟩).2.1

/-- C5 as stated is false for the in-memory store: adding two meals with
the same id from the empty state leaves two records with that id. -/
theorem C5_counterexample :
    ¬ ((runMem {} [StoreOp.addMeal { id := "a", timestamp := 100, imageUri := "", foodItems := [], calories := 1, confidence := 0 },
        StoreOp.addMeal { id := "a", timestamp := 200, imageUri := "", foodItems := [], calories := 2, confidence := 0 }]).mealsCache.map fun meal => meal.id).Nodup := by
  decide

/-- C5 amended: after any operation sequence from the empty state the
relational store has pairwise distinct meal ids unconditionally (its
primary key rejects duplicates), and the in-memory store does so provided
the sequence is well-formed (every addMeal uses a fresh id and every
saveMeals payload is duplicate-free). -/
theorem C5_nodup_amended (ops : List StoreOp) :
    ((runSql {} ops).meals.map fun meal => meal.id).Nodup ∧
      (wfOps {} ops = true →
        ((runMem {} ops).mealsCache.map fun meal => meal.id).Nodup) := by
  have hbase : ((({} : SqlState)).meals.map fun meal => meal.id).Nodup := by decide
  refine ⟨sql_nodup_run ops {} hbase, ?_⟩
  intro hwf
  obtain ⟨hm, -⟩ := storesAgree_run ops {} {} ⟨rfl, rfl⟩ hwf
  rw [hm]
  exact sql_nodup_run ops {} hbase

theorem C5_witness :
    ((runSql {} [StoreOp.addMeal { id := "a", timestamp := 100, imageUri := "", foodItems := [], calories := 1, confidence := 0 }]).meals.map
      fun meal => meal.id).Nodup :=
  (C5_nodup_amended [StoreOp.addMeal { id := "a", timestamp := 100, imageUri := "", foodItems := [], calories := 1, confidence := 0 }]).1

/-- The meal record synthesized by MealProvider.addMeal from the input,
the generated id and Date.now(). -/
def facadeNewMeal (input : MealInput) (newId : String) (now : Int) : Meal :=
  { id := newId, timestamp := now, imageUri := input.imageUri,
    foodItems := input.foodItems, calories := input.calories,
    confidence := input.confidence }

/-- C9 as stated is false: the facade compares the new meal's month against
the month of `new Date()` (the same instant as the meal's timestamp), not
against the displayed `currentDate`, so it refreshes the monthly summary
even when the displayed month differs from the meal's month. -/
theorem C9_counterexample :
    (localCivil 0 2678400000).2.1 ≠ (localCivil 0 0).2.1 ∧
      (MealProvider.addMeal 0
          { meals := [], monthlySummary := none, currentDate := 0, dailyGoal := 2000,
            error := none, db := {} }
          { imageUri := "", foodItems := [], calories := 5, confidence := 90 } "n1"
          2678400000).monthlySummary ≠ none := by
  constructor
  · decide
  · decide

/-- C9 amended: on a fresh id the facade's addMeal persists the synthesized
meal (id := the generated id, timestamp := now) by appending it to the
relational store, prepends it to the day list, clears the error, leaves
currentDate unchanged, and unconditionally replaces the monthly summary
with the freshly computed summary of the month of `now` — the comparison
guarding the refresh is between the meal's month and the month of
`new Date()`, both taken at `now`, so it always succeeds. -/
theorem C9_facade_addMeal_amended (tz : Int) (st : FacadeState) (input : MealInput)
    (newId : String) (now : Int)
    (hfresh : ∀ r ∈ st.db.meals, r.id ≠ newId) :
    (MealProvider.addMeal tz st input newId now).db.meals =
        st.db.meals ++ [facadeNewMeal input newId now] ∧
      (MealProvider.addMeal tz st input newId now).meals =
        facadeNewMeal input newId now :: st.meals ∧
      (MealProvider.addMeal tz st input newId now).monthlySummary =
        some (SQLiteDatabaseService.getMonthlySummary tz
          { st.db with meals := st.db.meals ++ [facadeNewMeal input newId now] }
          (localCivil tz now).2.1 (localCivil tz now).1) ∧
      (MealProvider.addMeal tz st input newId now).currentDate = st.currentDate ∧
      (MealProvider.addMeal tz st input newId now).error = none := by
  have hany : (st.db.meals.any fun r => r.id == (facadeNewMeal input newId now).id) =
      false := by
    rw [List.any_eq_false]
    intro r hr
    simpa [facadeNewMeal] using hfresh r hr
  have haddEq : SQLiteDatabaseService.addMeal st.db (facadeNewMeal input newId now) =
      ({ st.db with meals := st.db.meals ++ [facadeNewMeal input newId now] }, none) := by
    unfold SQLiteDatabaseService.addMeal
    rw [hany]
    simp
  simp only [facadeNewMeal] at haddEq
  refine ⟨?_, ?_, ?_, ?_, ?_⟩ <;>
    simp [MealProvider.addMeal, facadeNewMeal, haddEq]

theorem C9_witness :
    (MealProvider.addMeal 0
        { meals := [], monthlySummary := none, currentDate := 12345, dailyGoal := 2000,
          error := none, db := {} }
        { imageUri := "", foodItems := [], calories := 5, confidence := 90 } "n1"
        2678400000).currentDate = 12345 :=
  (C9_facade_addMeal_amended 0
    { meals := [], monthlySummary := none, currentDate := 12345, dailyGoal := 2000,
      error := none, db := {} }
    { imageUri := "", foodItems := [], calories := 5, confidence := 90 } "n1" 2678400000
    (fun r hr => absurd hr (List.not_mem_nil r))).2.2.2.1
